import Mathlib

/-
  Verification of the SVRG epoch-update engine
  (src/tick/optim/solver/src/svrg.cpp).

  Shallow embedding conventions:
  * `double` values are modelled as exact rationals `ℚ`; all the claims
    checked here are structural/algebraic, not floating-point facts.
  * `ArrayDouble` / `ArrayULong` members of the solver are modelled as total
    functions `Nat → ℚ` / `Nat → Nat`; the C++ code only ever reads indices
    inside the allocated range (feature indices `< n_features`, plus the
    intercept slot `n_features`), so the behaviour on the read domain is
    identical.
  * The external collaborators (model, prox, sampler, RNG) are out of scope
    per the specification; they are passed in as abstract structures /
    functions, exactly as the C++ code consumes them through virtual calls.
  * Stateful C++ methods become explicit state-passing functions on the
    `State` structure below.
-/

namespace SVRG

/-- Coordinate vectors (`ArrayDouble` in the source). -/
def Vec : Type := Nat → ℚ

/-- `ArrayULong` timestamp vectors (`last_time` in the source). -/
def VecN : Type := Nat → Nat

/-- Variance reduction policy. Declared in `svrg.h` (not under `src/`);
modelled from the spec: "variance-reduction policy (one of
{Random, Average, Last})". -/
inductive VarianceReductionMethod
  | Last
  | Average
  | Random
deriving DecidableEq, Repr

/-- Delayed-updates policy. Declared in `svrg.h` (not under `src/`);
modelled from the spec: "delayed-update policy (one of {Exact, Proba})" —
exactly these two values exist. -/
inductive DelayedUpdatesMethod
  | Exact
  | Proba
deriving DecidableEq, Repr

/-- The model collaborator, out of scope per the spec (§6 External
Interfaces); the fields are the abstract operations the SVRG core consumes:
`grad` (full-pass gradient), `grad_i` (per-sample gradient, dense path),
`grad_i_factor` (GLM scalar factor, sparse path), `get_features` (sparse
feature pairs `(index, value)`), sample/feature counts, flags, and the
per-column nonzero counts used by the step corrections. -/
structure Model where
  n_features : Nat
  n_samples : Nat
  is_sparse : Bool
  use_intercept : Bool
  grad : Vec → Vec
  grad_i : Nat → Vec → Vec
  grad_i_factor : Nat → Vec → ℚ
  get_features : Nat → List (Nat × ℚ)
  columns_non_zeros : Nat → Nat

/-- The proximal-operator collaborator, out of scope per the spec (§6):
whole-vector application `call(vector, step)` and, for separable proxes,
single-coordinate application `call_single(value, step)`. -/
structure Prox where
  is_separable : Bool
  call : Vec → ℚ → Vec
  call_single : ℚ → ℚ → ℚ

/-- Modelled from the spec: `ProxSeparable::call_single(x, step, n_times)`
is not under `src/`; the spec (§6) defines `apply_single_delayed(scalar,
step, delay_count)` as the "batched equivalent of `delay_count` consecutive
single-step applications", i.e. the `delay_count`-fold iterate of
`call_single`. -/
def call_single_delayed (p : Prox) (x step : ℚ) (n_times : Nat) : ℚ :=
  (fun y => p.call_single y step)^[n_times] x

/-- The mutable solver state: members of `SVRG` (and the inherited
`StoSolver` members `iterate`, `next_iterate`, `t`). -/
structure State where
  iterate : Vec
  next_iterate : Vec
  fixed_w : Vec
  full_gradient : Vec
  last_time : VecN
  steps_correction : Vec
  ready_step_corrections : Bool
  is_model_sparse : Bool
  n_features : Nat
  use_intercept : Bool
  is_prox_separable : Bool
  t : Nat
  rand_index : Nat

/-- The per-solve configuration: constructor arguments of `SVRG`
(`epoch_size`, `step`, the two policies), the bound collaborators, the
external sampler stream `get_next_i` (iteration index ↦ sample index), and
the outcome of the RNG draw `rand_unif(epoch_size)`. The sampler and RNG
are out of scope per the spec; `rand_draw` is modelled from the spec:
"draws one representative iteration index uniformly in `[0, epoch_size)`",
so theorems assume `rand_draw < epoch_size`. -/
structure Config where
  epoch_size : Nat
  step : ℚ
  variance_reduction : VarianceReductionMethod
  delayed_updates : DelayedUpdatesMethod
  model : Model
  prox : Prox
  get_next_i : Nat → Nat
  rand_draw : Nat

/-- `SVRG::set_model` (svrg.cpp lines 20–29): resets the step-correction
cache flag and refreshes the sparsity-dependent flags (the latter only when
the model is sparse, as in the source). -/
def set_model (cfg : Config) (s : State) : State :=
  let s := { s with ready_step_corrections := false,
                    is_model_sparse := cfg.model.is_sparse }
  if cfg.model.is_sparse then
    { s with n_features := cfg.model.n_features,
             use_intercept := cfg.model.use_intercept }
  else s

/-- `SVRG::set_prox` (svrg.cpp lines 31–34). -/
def set_prox (cfg : Config) (s : State) : State :=
  { s with is_prox_separable := cfg.prox.is_separable }

/-- The step-correction values written by `SVRG::compute_step_corrections`
(svrg.cpp line 87): `steps_correction[j] =
static_cast<double>(n_samples / columns_non_zeros[j])`. NOTE: the source
performs the division in unsigned-integer arithmetic (both operands are
`ulong`) and only then casts the already-truncated quotient to `double`;
this is embedded faithfully as Lean natural division followed by the cast
into `ℚ`. A zero `columns_non_zeros[j]` is undefined behaviour in C++ (see
`compute_step_corrections_checked`); Lean's total `Nat` division returns 0
there, standing in for a value the C++ program never produces. The source
loop fills exactly the indices `j < n_features` and the solver only reads
those indices. -/
def steps_correction_of (m : Model) : Vec :=
  fun j => if j < m.n_features then ((m.n_samples / m.columns_non_zeros j : Nat) : ℚ) else 0

/-- The division `n_samples / columns_non_zeros[j]` of svrg.cpp line 87 with
its fallibility made explicit: unsigned integer division by zero is
undefined behaviour in C++ (on mainstream hardware, a fatal trap), and the
source performs it with no prior validation of the counts; `none` marks
that the computation is undefined — it is not a surfaced configuration
error. -/
def compute_step_corrections_checked (m : Model) : Option Vec :=
  if (List.range m.n_features).all (fun j => m.columns_non_zeros j ≠ 0) then
    some (steps_correction_of m)
  else none

/-- `SVRG::compute_step_corrections` (svrg.cpp lines 76–92): guarded by the
`ready_step_corrections` flag, and the body only runs when the model is
sparse AND the delayed-updates policy is `Proba`. -/
def compute_step_corrections (cfg : Config) (s : State) : State :=
  if !s.ready_step_corrections then
    if cfg.model.is_sparse && cfg.delayed_updates = DelayedUpdatesMethod.Proba then
      { s with steps_correction := steps_correction_of cfg.model,
               ready_step_corrections := true }
    else s
  else s

/-- `SVRG::prepare_solve` (svrg.cpp lines 36–60): fixes the reference point
to the previous epoch's `next_iterate`, computes the full gradient there,
resets the last-touch timestamps and runs the step-correction helper when
the model is sparse, then handles the variance-reduction initialisation
(`rand_index = 0`; zero `next_iterate` under Random/Average; draw
`rand_index` under Random). The dense-path scratch buffers `grad_i` /
`grad_i_fixed_w` carry no state (they are overwritten before every read in
`solve_dense`) and are therefore not part of `State`. -/
def prepare_solve (cfg : Config) (s : State) : State :=
  let s := { s with fixed_w := s.next_iterate,
                    full_gradient := cfg.model.grad s.next_iterate }
  let s := if s.is_model_sparse then
      compute_step_corrections cfg { s with last_time := fun _ => 0 }
    else s
  let s := { s with rand_index := 0 }
  let s := if cfg.variance_reduction = VarianceReductionMethod.Random ∨
              cfg.variance_reduction = VarianceReductionMethod.Average then
      { s with next_iterate := fun _ => 0 }
    else s
  if cfg.variance_reduction = VarianceReductionMethod.Random then
    { s with rand_index := cfg.rand_draw }
  else s

/-- `next_iterate.mult_incr(iterate, c)`: `next_iterate += c * iterate`
(tick array primitive, used at svrg.cpp lines 107, 161, 230). -/
def mult_incr (a b : Vec) (c : ℚ) : Vec :=
  fun j => a j + c * b j

/-- The variance-reduction snapshot selector: the two per-iteration branches
shared verbatim by all three update routines (svrg.cpp lines 103–108,
157–162, 226–231). Reads the loop counter `t` and the state's `rand_index`;
only ever writes `next_iterate`. -/
def vr_snapshot (cfg : Config) (t : Nat) (s : State) : State :=
  let s := if cfg.variance_reduction = VarianceReductionMethod.Random ∧
              t = s.rand_index then
      { s with next_iterate := s.iterate }
    else s
  if cfg.variance_reduction = VarianceReductionMethod.Average then
    { s with next_iterate := mult_incr s.next_iterate s.iterate (1 / (cfg.epoch_size : ℚ)) }
  else s

/-- The coordinate update of the dense routine (svrg.cpp lines 96–101):
`grad_i` and `grad_i_fixed_w` are computed before the coordinate loop, so
every coordinate is written once from pre-loop reads. -/
def dense_update (cfg : Config) (i : Nat) (w fixed_w full_gradient : Vec) : Vec :=
  let gi := cfg.model.grad_i i w
  let gifw := cfg.model.grad_i i fixed_w
  fun j => w j - cfg.step * (gi j - gifw j + full_gradient j)

/-- One iteration of the dense loop body (svrg.cpp lines 96–108). -/
def dense_iter (cfg : Config) (s : State) (t : Nat) : State :=
  let i := cfg.get_next_i t
  let w := dense_update cfg i s.iterate s.fixed_w s.full_gradient
  let s := { s with iterate := cfg.prox.call w cfg.step }
  vr_snapshot cfg t s

/-- The first `k` iterations of the dense loop. -/
def dense_loop (cfg : Config) (s : State) (k : Nat) : State :=
  (List.range k).foldl (dense_iter cfg) s

/-- `SVRG::solve_dense` (svrg.cpp lines 94–114). The loop counter `t` is a
local variable shadowing the member; the final `t += epoch_size` at line 113
is outside the loop and therefore increments the member `t`. -/
def solve_dense (cfg : Config) (s : State) : State :=
  let s := dense_loop cfg s cfg.epoch_size
  let s := if cfg.variance_reduction = VarianceReductionMethod.Last then
      { s with next_iterate := s.iterate }
    else s
  { s with t := s.t + cfg.epoch_size }

/-- The per-coordinate body of the probabilistic support loop (svrg.cpp
lines 133–145): the gradient-descent step with probabilistic step-size
correction, then (if the prox is separable) the single-coordinate prox with
the corrected step size `step * step_correction`. -/
def proba_coord_update (cfg : Config) (sep : Bool) (grad_i_diff : ℚ)
    (sc full_gradient : Vec) (w : Vec) (jx : Nat × ℚ) : Vec :=
  let j := jx.1
  let w := Function.update w j
    (w j - cfg.step * (jx.2 * grad_i_diff + sc j * full_gradient j))
  if sep then
    Function.update w j (cfg.prox.call_single (w j) (cfg.step * sc j))
  else w

/-- The support loop of the probabilistic routine (svrg.cpp lines 133–145)
over the sparse feature pairs of the sampled vector. -/
def proba_support_loop (cfg : Config) (sep : Bool) (grad_i_diff : ℚ)
    (sc full_gradient : Vec) (x_i : List (Nat × ℚ)) (w : Vec) : Vec :=
  x_i.foldl (proba_coord_update cfg sep grad_i_diff sc full_gradient) w

/-- One iteration of `solve_sparse_proba_updates` (svrg.cpp lines 124–163):
gradient factors at the pre-update iterate, the support loop, the
whole-vector prox when not separable, the unconditional intercept update,
then the variance-reduction snapshot selector. -/
def proba_iter (cfg : Config) (t : Nat) (s : State) : State :=
  let i := cfg.get_next_i t
  let x_i := cfg.model.get_features i
  let grad_i_diff :=
    cfg.model.grad_i_factor i s.iterate - cfg.model.grad_i_factor i s.fixed_w
  let w := proba_support_loop cfg s.is_prox_separable grad_i_diff
    s.steps_correction s.full_gradient x_i s.iterate
  let w := if !s.is_prox_separable then cfg.prox.call w cfg.step else w
  let w := if s.use_intercept then
      Function.update w s.n_features
        (w s.n_features - cfg.step * (grad_i_diff + s.full_gradient s.n_features))
    else w
  vr_snapshot cfg t { s with iterate := w }

/-- `SVRG::solve_sparse_proba_updates` (svrg.cpp lines 116–168). The epoch
loop reuses the inherited member `t` as its loop variable (`for (t = 0;
t < epoch_size; ++t)`), leaving it at `epoch_size` on exit; line 164 then
adds `epoch_size` again — so the member ends at `2 * epoch_size` regardless
of its prior value. The `Last` snapshot copy (lines 165–167) happens after
that increment. -/
def solve_sparse_proba_updates (cfg : Config) (s : State) : State :=
  let s := (List.range cfg.epoch_size).foldl (fun s t => proba_iter cfg t s) s
  let s := { s with t := cfg.epoch_size + cfg.epoch_size }
  if cfg.variance_reduction = VarianceReductionMethod.Last then
    { s with next_iterate := s.iterate }
  else s

/-- The delay computation of the exact routine (svrg.cpp lines 190–194 and
236–240): `delay_j = t - (last_time[j] + 1)` clamped to `≥ 0`. -/
def exact_delay (t last_time_j : Nat) : Nat :=
  if t > last_time_j + 1 then t - (last_time_j + 1) else 0

/-- The catch-up block of the exact routine (svrg.cpp lines 198–205 and
241–246): when the delay is positive, one bulk variance-reduction decrement
`step * delay * full_gradient[j]` followed (separable prox only) by the
batched prox call for `delay` skipped steps. -/
def exact_catch_up (cfg : Config) (sep : Bool) (full_gradient_j : ℚ)
    (delay_j : Nat) (x : ℚ) : ℚ :=
  if delay_j > 0 then
    let x := x - cfg.step * (delay_j : ℚ) * full_gradient_j
    if sep then call_single_delayed cfg.prox x cfg.step delay_j else x
  else x

/-- The current-iteration exact support update (svrg.cpp lines 206–211):
the combined gradient step followed by one single-step separable prox. -/
def exact_support_step (cfg : Config) (sep : Bool) (grad_i_diff full_gradient_j x_ij : ℚ)
    (x : ℚ) : ℚ :=
  let x := x - cfg.step * (x_ij * grad_i_diff + full_gradient_j)
  if sep then cfg.prox.call_single x cfg.step else x

/-- The support loop of the exact routine (svrg.cpp lines 186–214): per
support coordinate, catch up the delay, apply the exact support update, and
record `last_time[j] = t`. -/
def exact_support_loop (cfg : Config) (sep : Bool) (t : Nat) (grad_i_diff : ℚ)
    (full_gradient : Vec) (x_i : List (Nat × ℚ)) (w : Vec) (lt : VecN) :
    Vec × VecN :=
  x_i.foldl (fun wl jx =>
    let j := jx.1
    let delay_j := exact_delay t (wl.2 j)
    let x := exact_catch_up cfg sep (full_gradient j) delay_j (wl.1 j)
    let x := exact_support_step cfg sep grad_i_diff (full_gradient j) jx.2 x
    (Function.update wl.1 j x, Function.update wl.2 j t)) (w, lt)

/-- One iteration of `solve_sparse_exact_updates` (svrg.cpp lines 177–231). -/
def exact_iter (cfg : Config) (t : Nat) (s : State) : State :=
  let i := cfg.get_next_i t
  let x_i := cfg.model.get_features i
  let grad_i_diff :=
    cfg.model.grad_i_factor i s.iterate - cfg.model.grad_i_factor i s.fixed_w
  let wl := exact_support_loop cfg s.is_prox_separable t grad_i_diff
    s.full_gradient x_i s.iterate s.last_time
  let w := wl.1
  let w := if !s.is_prox_separable then cfg.prox.call w cfg.step else w
  let w := if s.use_intercept then
      Function.update w s.n_features
        (w s.n_features - cfg.step * (grad_i_diff + s.full_gradient s.n_features))
    else w
  vr_snapshot cfg t { s with iterate := w, last_time := wl.2 }

/-- The end-of-epoch finalization pass of the exact routine (svrg.cpp lines
233–247): iterates `j` over `0 ≤ j < n_features` only (not the intercept),
applies any outstanding catch-up using the member `t` (equal to
`epoch_size` at this point), writes `iterate[j]`, and does not write
`last_time[j]`. Coordinates are independent, so the loop is pointwise. -/
def exact_finalize (cfg : Config) (s : State) : State :=
  { s with iterate := fun j =>
      if j < s.n_features then
        (exact_catch_up cfg s.is_prox_separable (s.full_gradient j)
          (exact_delay s.t (s.last_time j)) (s.iterate j))
      else s.iterate j }

/-- `SVRG::solve_sparse_exact_updates` (svrg.cpp lines 170–252). The epoch
loop reuses the member `t` (leaving it at `epoch_size`), the finalization
pass then reads that member, line 248 adds `epoch_size` again (hence
`t = 2 * epoch_size` regardless of the prior value), and the `Last`
snapshot copy (lines 249–251) comes last. -/
def solve_sparse_exact_updates (cfg : Config) (s : State) : State :=
  let s := (List.range cfg.epoch_size).foldl (fun s t => exact_iter cfg t s) s
  let s := exact_finalize cfg { s with t := cfg.epoch_size }
  let s := { s with t := s.t + cfg.epoch_size }
  if cfg.variance_reduction = VarianceReductionMethod.Last then
    { s with next_iterate := s.iterate }
  else s

/-- The observable phases of one `solve()` call, for stating the dispatch
contract. -/
inductive Event
  | prepare
  | run_dense
  | run_sparse_exact
  | run_sparse_proba
deriving DecidableEq, Repr

/-- Executes one phase of `solve()`. -/
def run_event (cfg : Config) (s : State) (e : Event) : State :=
  match e with
  | Event.prepare => prepare_solve cfg s
  | Event.run_dense => solve_dense cfg s
  | Event.run_sparse_exact => solve_sparse_exact_updates cfg s
  | Event.run_sparse_proba => solve_sparse_proba_updates cfg s

/-- The sequence of phases executed by `SVRG::solve` (svrg.cpp lines
62–74): the snapshot preparer, then the two non-exclusive `if`s on the
delayed-updates policy when the model is sparse, else the dense routine. -/
def solve_trace (cfg : Config) : List Event :=
  Event.prepare ::
    (if cfg.model.is_sparse then
      (if cfg.delayed_updates = DelayedUpdatesMethod.Exact then
        [Event.run_sparse_exact] else []) ++
      (if cfg.delayed_updates = DelayedUpdatesMethod.Proba then
        [Event.run_sparse_proba] else [])
    else [Event.run_dense])

/-- `SVRG::solve` (svrg.cpp lines 62–74). -/
def solve (cfg : Config) (s : State) : State :=
  let s := prepare_solve cfg s
  if cfg.model.is_sparse then
    let s := if cfg.delayed_updates = DelayedUpdatesMethod.Exact then
        solve_sparse_exact_updates cfg s
      else s
    if cfg.delayed_updates = DelayedUpdatesMethod.Proba then
      solve_sparse_proba_updates cfg s
    else s
  else solve_dense cfg s

/-- Repeated epochs: `n` successive calls to `solve()`. -/
def solve_epochs (cfg : Config) (s : State) : Nat → State
  | 0 => s
  | Nat.succ n => solve cfg (solve_epochs cfg s n)

/-- A minimal concrete model used by the concrete witnesses and
counterexamples below. -/
def baseModel : Model where
  n_features := 1
  n_samples := 1
  is_sparse := false
  use_intercept := false
  grad := fun _ => fun _ => 0
  grad_i := fun _ _ => fun _ => 0
  grad_i_factor := fun _ _ => 0
  get_features := fun _ => []
  columns_non_zeros := fun _ => 1

/-- A separable prox whose applications are the identity (trivial
regularization), for concrete witnesses. -/
def idProx : Prox where
  is_separable := true
  call := fun v _ => v
  call_single := fun x _ => x

/-- A minimal concrete configuration for witnesses. -/
def baseConfig : Config where
  epoch_size := 1
  step := 1
  variance_reduction := VarianceReductionMethod.Last
  delayed_updates := DelayedUpdatesMethod.Proba
  model := baseModel
  prox := idProx
  get_next_i := fun _ => 0
  rand_draw := 0

/-- A minimal concrete solver state for witnesses. -/
def baseState : State where
  iterate := fun _ => 0
  next_iterate := fun _ => 0
  fixed_w := fun _ => 0
  full_gradient := fun _ => 0
  last_time := fun _ => 0
  steps_correction := fun _ => 0
  ready_step_corrections := false
  is_model_sparse := false
  n_features := 1
  use_intercept := false
  is_prox_separable := true
  t := 0
  rand_index := 0

/-- A sparse model with 3 samples and a single feature column holding 2
nonzero values: the exact rational quotient is `3 / 2`. -/
def modelC1 : Model :=
  { baseModel with is_sparse := true, n_samples := 3, columns_non_zeros := fun _ => 2 }

/-- Claim C1 (failing-input evaluation): svrg.cpp line 87 computes
`static_cast<double>(n_samples / columns_non_zeros[j])` — an unsigned
integer division truncated BEFORE the cast. With `n_samples = 3` and
`nonzero_count[0] = 2` the code stores `1`, while the claimed exact
rational quotient is `3 / 2`. -/
theorem C1_step_correction_integer_division :
    steps_correction_of modelC1 0 = 1 ∧
    (modelC1.n_samples : ℚ) / (modelC1.columns_non_zeros 0 : ℚ) = 3 / 2 ∧
    (1 : ℚ) ≠ 3 / 2 := by
  refine ⟨?_, ?_, ?_⟩ <;> norm_num [steps_correction_of, modelC1, baseModel]

/-- A sparse 1-feature model whose only column has zero nonzero values. -/
def modelC2 : Model :=
  { baseModel with is_sparse := true, n_samples := 3, columns_non_zeros := fun _ => 0 }

/-- Claim C2 (failing-input evaluation): with a feature column of zero
nonzero count, svrg.cpp line 87 performs the unsigned integer division
`n_samples / 0` with no prior validation — undefined behaviour in C++
(modelled as `none`), not a surfaced fatal configuration error. -/
theorem C2_zero_column_is_undefined_behaviour :
    modelC2.columns_non_zeros 0 = 0 ∧
    compute_step_corrections_checked modelC2 = none := by
  exact ⟨rfl, rfl⟩

/-- Claim C3: every `solve()` call first runs the snapshot preparer and
then dispatches exactly one update routine — the dense routine when the
model is dense, the sparse exact routine under policy `Exact`, the sparse
probabilistic routine under policy `Proba`. (The delayed-updates policy has
exactly the two values `Exact` and `Proba`, so no unrecognized sparse
combination is representable and the fatal-abort clause of the claim is
vacuous.) -/
theorem C3_dispatch (cfg : Config) (s : State) :
    solve cfg s = (solve_trace cfg).foldl (run_event cfg) s ∧
    solve_trace cfg =
      [Event.prepare,
        if cfg.model.is_sparse = false then Event.run_dense
        else if cfg.delayed_updates = DelayedUpdatesMethod.Exact then
          Event.run_sparse_exact
        else Event.run_sparse_proba] := by
  cases hsp : cfg.model.is_sparse <;> cases hdu : cfg.delayed_updates <;>
    simp [solve, solve_trace, run_event, hsp, hdu]

/-- Iterating a constant decrement `d` times subtracts `d` times the
constant. -/
lemma iterate_sub_const (c : ℚ) (d : Nat) (x : ℚ) :
    (fun y => y - c)^[d] x = x - (d : ℚ) * c := by
  induction d generalizing x with
  | zero => simp
  | succ n ih =>
    rw [Function.iterate_succ_apply, ih]
    push_cast
    ring

/-- Follows the spec's words (§8, the unbatched reference form for claim
C4): `d` sequential single-step full-gradient decrements, then `d`
sequential single-step separable-prox applications, then the same one
exact-support update (its gradient step and its one single-step prox). -/
def spec_sequential_catch_up (cfg : Config) (full_gradient_j grad_i_diff x_ij : ℚ)
    (d : Nat) (x : ℚ) : ℚ :=
  let x := (fun y => y - cfg.step * full_gradient_j)^[d] x
  let x := (fun y => cfg.prox.call_single y cfg.step)^[d] x
  let x := x - cfg.step * (x_ij * grad_i_diff + full_gradient_j)
  cfg.prox.call_single x cfg.step

/-- Claim C4: with a separable prox, the batched catch-up of the exact
routine (one bulk decrement `step * d * full_gradient[j]`, one `d`-step
batched prox call, then the single exact support update with its one
single-step prox) equals the unbatched sequential form for any delay `d`,
any prox, and any coefficient values. -/
theorem C4_batched_catch_up_eq_sequential (cfg : Config)
    (full_gradient_j grad_i_diff x_ij x : ℚ) (d : Nat) :
    exact_support_step cfg true grad_i_diff full_gradient_j x_ij
      (exact_catch_up cfg true full_gradient_j d x) =
    spec_sequential_catch_up cfg full_gradient_j grad_i_diff x_ij d x := by
  have harg : x - cfg.step * (d : ℚ) * full_gradient_j =
      x - (d : ℚ) * (cfg.step * full_gradient_j) := by ring
  rcases Nat.eq_zero_or_pos d with hd | hd
  · subst hd
    simp [exact_catch_up, spec_sequential_catch_up, exact_support_step]
  · simp only [exact_catch_up, spec_sequential_catch_up, exact_support_step,
      call_single_delayed, iterate_sub_const, gt_iff_lt, hd, if_true, ite_true]
    rw [harg]

/-! State-preservation facts about the embedded routines, shared by the
claim theorems below. -/

lemma vr_snapshot_iterate (cfg : Config) (t : Nat) (s : State) :
    (vr_snapshot cfg t s).iterate = s.iterate := by
  simp only [vr_snapshot]
  split_ifs <;> rfl

lemma vr_snapshot_t (cfg : Config) (t : Nat) (s : State) :
    (vr_snapshot cfg t s).t = s.t := by
  simp only [vr_snapshot]
  split_ifs <;> rfl

lemma vr_snapshot_rand_index (cfg : Config) (t : Nat) (s : State) :
    (vr_snapshot cfg t s).rand_index = s.rand_index := by
  simp only [vr_snapshot]
  split_ifs <;> rfl

lemma vr_snapshot_steps_correction (cfg : Config) (t : Nat) (s : State) :
    (vr_snapshot cfg t s).steps_correction = s.steps_correction := by
  simp only [vr_snapshot]
  split_ifs <;> rfl

lemma vr_snapshot_ready (cfg : Config) (t : Nat) (s : State) :
    (vr_snapshot cfg t s).ready_step_corrections = s.ready_step_corrections := by
  simp only [vr_snapshot]
  split_ifs <;> rfl

lemma vr_snapshot_last_time (cfg : Config) (t : Nat) (s : State) :
    (vr_snapshot cfg t s).last_time = s.last_time := by
  simp only [vr_snapshot]
  split_ifs <;> rfl

lemma compute_step_corrections_next_iterate (cfg : Config) (s : State) :
    (compute_step_corrections cfg s).next_iterate = s.next_iterate := by
  simp only [compute_step_corrections]
  split_ifs <;> rfl

lemma compute_step_corrections_iterate (cfg : Config) (s : State) :
    (compute_step_corrections cfg s).iterate = s.iterate := by
  simp only [compute_step_corrections]
  split_ifs <;> rfl

lemma compute_step_corrections_t (cfg : Config) (s : State) :
    (compute_step_corrections cfg s).t = s.t := by
  simp only [compute_step_corrections]
  split_ifs <;> rfl

lemma prepare_solve_iterate (cfg : Config) (s : State) :
    (prepare_solve cfg s).iterate = s.iterate := by
  simp only [prepare_solve]
  split_ifs <;> simp [compute_step_corrections_iterate]

lemma prepare_solve_t (cfg : Config) (s : State) :
    (prepare_solve cfg s).t = s.t := by
  simp only [prepare_solve]
  split_ifs <;> simp [compute_step_corrections_t]

lemma dense_iter_t (cfg : Config) (s : State) (t : Nat) :
    (dense_iter cfg s t).t = s.t := by
  simp only [dense_iter, vr_snapshot_t]

lemma dense_iter_rand_index (cfg : Config) (s : State) (t : Nat) :
    (dense_iter cfg s t).rand_index = s.rand_index := by
  simp only [dense_iter, vr_snapshot_rand_index]

lemma dense_loop_t (cfg : Config) (s : State) (k : Nat) :
    (dense_loop cfg s k).t = s.t := by
  suffices h : ∀ (l : List Nat) (s : State), (l.foldl (dense_iter cfg) s).t = s.t by
    exact h (List.range k) s
  intro l
  induction l with
  | nil => intro s; rfl
  | cons a l ih => intro s; rw [List.foldl_cons, ih, dense_iter_t]

lemma dense_loop_rand_index (cfg : Config) (s : State) (k : Nat) :
    (dense_loop cfg s k).rand_index = s.rand_index := by
  suffices h : ∀ (l : List Nat) (s : State),
      (l.foldl (dense_iter cfg) s).rand_index = s.rand_index by
    exact h (List.range k) s
  intro l
  induction l with
  | nil => intro s; rfl
  | cons a l ih => intro s; rw [List.foldl_cons, ih, dense_iter_rand_index]

lemma solve_dense_t (cfg : Config) (s : State) :
    (solve_dense cfg s).t = s.t + cfg.epoch_size := by
  by_cases h : cfg.variance_reduction = VarianceReductionMethod.Last <;>
    simp [solve_dense, h, dense_loop_t]

lemma solve_sparse_proba_updates_t (cfg : Config) (s : State) :
    (solve_sparse_proba_updates cfg s).t = cfg.epoch_size + cfg.epoch_size := by
  by_cases h : cfg.variance_reduction = VarianceReductionMethod.Last <;>
    simp [solve_sparse_proba_updates, h]

lemma exact_finalize_t (cfg : Config) (s : State) :
    (exact_finalize cfg s).t = s.t := rfl

lemma exact_finalize_last_time (cfg : Config) (s : State) :
    (exact_finalize cfg s).last_time = s.last_time := rfl

lemma solve_sparse_exact_updates_t (cfg : Config) (s : State) :
    (solve_sparse_exact_updates cfg s).t = cfg.epoch_size + cfg.epoch_size := by
  by_cases h : cfg.variance_reduction = VarianceReductionMethod.Last <;>
    simp [solve_sparse_exact_updates, h, exact_finalize_t]

/-- Claim C10: after `solve()` on a sparse model (either delayed-updates
policy) the inherited counter `t` equals `2 * epoch_size` regardless of its
prior value, because both sparse routines reuse the member as epoch loop
variable and then add `epoch_size`; after `solve()` on a dense model the
counter instead increases by exactly `epoch_size` (the dense loop counter is
a local shadowing the member). -/
theorem C10_global_iteration_counter (cfg : Config) (s : State) :
    (cfg.model.is_sparse = true → (solve cfg s).t = 2 * cfg.epoch_size) ∧
    (cfg.model.is_sparse = false → (solve cfg s).t = s.t + cfg.epoch_size) := by
  constructor <;> intro h
  · cases hdu : cfg.delayed_updates <;>
      simp [solve, h, hdu, solve_sparse_exact_updates_t, solve_sparse_proba_updates_t,
        two_mul]
  · simp [solve, h, solve_dense_t, prepare_solve_t]

/-- Witness for C10 at a concrete sparse configuration (epoch size 2,
prior counter 7) and a concrete dense configuration (prior counter 7). -/
theorem C10_global_iteration_counter_witness :
    (solve { baseConfig with epoch_size := 2, model := modelC1 }
        { baseState with t := 7, is_model_sparse := true }).t = 2 * 2 ∧
    (solve { baseConfig with epoch_size := 2 } { baseState with t := 7 }).t = 7 + 2 := by
  constructor
  · exact (C10_global_iteration_counter
      { baseConfig with epoch_size := 2, model := modelC1 }
      { baseState with t := 7, is_model_sparse := true }).1 rfl
  · exact (C10_global_iteration_counter
      { baseConfig with epoch_size := 2 } { baseState with t := 7 }).2 rfl

lemma dense_update_zero_step (cfg : Config) (hstep : cfg.step = 0)
    (i : Nat) (w fw fg : Vec) :
    dense_update cfg i w fw fg = w := by
  funext j
  simp [dense_update, hstep]

lemma dense_iter_iterate_zero_step (cfg : Config) (hstep : cfg.step = 0)
    (hprox : ∀ v, cfg.prox.call v 0 = v) (s : State) (t : Nat) :
    (dense_iter cfg s t).iterate = s.iterate := by
  simp only [dense_iter, vr_snapshot_iterate]
  rw [dense_update_zero_step cfg hstep, hstep, hprox]

lemma dense_loop_iterate_zero_step (cfg : Config) (hstep : cfg.step = 0)
    (hprox : ∀ v, cfg.prox.call v 0 = v) (s : State) (k : Nat) :
    (dense_loop cfg s k).iterate = s.iterate := by
  suffices h : ∀ (l : List Nat) (s : State),
      (l.foldl (dense_iter cfg) s).iterate = s.iterate by
    exact h (List.range k) s
  intro l
  induction l with
  | nil => intro s; rfl
  | cons a l ih =>
    intro s
    rw [List.foldl_cons, ih, dense_iter_iterate_zero_step cfg hstep hprox]

lemma solve_dense_iterate_zero_step (cfg : Config) (hstep : cfg.step = 0)
    (hprox : ∀ v, cfg.prox.call v 0 = v) (s : State) :
    (solve_dense cfg s).iterate = s.iterate := by
  by_cases h : cfg.variance_reduction = VarianceReductionMethod.Last <;>
    simp [solve_dense, h, dense_loop_iterate_zero_step cfg hstep hprox]

/-- Claim C9: with zero step size and a dense model, each `solve()` call
maps the iterate to itself, for any number of epochs. The whole-vector
proximal operator is consumed as external collaborator; a proximal step
with zero step size applies zero regularization, i.e. is the identity
(hypothesis `hprox`). -/
theorem C9_zero_step_leaves_iterate (cfg : Config) (s : State)
    (hstep : cfg.step = 0) (hsp : cfg.model.is_sparse = false)
    (hprox : ∀ v, cfg.prox.call v 0 = v) (n : Nat) :
    (solve_epochs cfg s n).iterate = s.iterate := by
  induction n with
  | zero => rfl
  | succ n ih =>
    have hsolve : ∀ s' : State, (solve cfg s').iterate = s'.iterate := by
      intro s'
      simp [solve, hsp, solve_dense_iterate_zero_step cfg hstep hprox,
        prepare_solve_iterate]
    rw [solve_epochs, hsolve, ih]

/-- Witness for C9: a concrete dense configuration with zero step and the
identity prox, run for 3 epochs. -/
theorem C9_zero_step_leaves_iterate_witness :
    (solve_epochs { baseConfig with step := 0 } baseState 3).iterate =
      baseState.iterate := by
  exact C9_zero_step_leaves_iterate { baseConfig with step := 0 } baseState
    rfl rfl (fun v => rfl) 3

lemma vr_snapshot_random_hit (cfg : Config) (t : Nat) (s : State)
    (hvr : cfg.variance_reduction = VarianceReductionMethod.Random)
    (ht : t = s.rand_index) :
    (vr_snapshot cfg t s).next_iterate = s.iterate := by
  simp [vr_snapshot, hvr, ht]

lemma vr_snapshot_random_miss (cfg : Config) (t : Nat) (s : State)
    (hvr : cfg.variance_reduction = VarianceReductionMethod.Random)
    (ht : t ≠ s.rand_index) :
    (vr_snapshot cfg t s).next_iterate = s.next_iterate := by
  simp [vr_snapshot, hvr, ht]

lemma dense_iter_random_miss (cfg : Config) (s : State) (t : Nat)
    (hvr : cfg.variance_reduction = VarianceReductionMethod.Random)
    (ht : t ≠ s.rand_index) :
    (dense_iter cfg s t).next_iterate = s.next_iterate := by
  simp only [dense_iter]
  exact vr_snapshot_random_miss cfg t _ hvr ht

lemma dense_iter_random_hit (cfg : Config) (s : State) (t : Nat)
    (hvr : cfg.variance_reduction = VarianceReductionMethod.Random)
    (ht : t = s.rand_index) :
    (dense_iter cfg s t).next_iterate = (dense_iter cfg s t).iterate := by
  simp only [dense_iter, vr_snapshot_iterate]
  exact vr_snapshot_random_hit cfg t _ hvr ht

lemma foldl_dense_iter_random_miss (cfg : Config) (r : Nat)
    (hvr : cfg.variance_reduction = VarianceReductionMethod.Random) :
    ∀ (l : List Nat) (s : State), s.rand_index = r → (∀ x ∈ l, x ≠ r) →
      (l.foldl (dense_iter cfg) s).next_iterate = s.next_iterate := by
  intro l
  induction l with
  | nil => intro s _ _; rfl
  | cons a l ih =>
    intro s hs hl
    rw [List.foldl_cons]
    have hrand : (dense_iter cfg s a).rand_index = r := by
      rw [dense_iter_rand_index, hs]
    rw [ih _ hrand (fun x hx => hl x (List.mem_cons_of_mem a hx))]
    exact dense_iter_random_miss cfg s a hvr
      (by rw [hs]; exact hl a (List.mem_cons_self a l))

lemma dense_loop_succ (cfg : Config) (s : State) (k : Nat) :
    dense_loop cfg s (k + 1) = dense_iter cfg (dense_loop cfg s k) k := by
  simp [dense_loop, List.range_succ]

/-- Claim C6: under the Random variance-reduction policy, `prepare_solve`
zeroes the Next Iterate accumulator and installs the drawn representative
index; after a dense epoch, `next_iterate` equals exactly the live iterate
observed right after the update of the pre-drawn iteration
(`dense_loop … (rand_draw + 1)`), an expression independent of every later
iteration of the epoch. The draw itself is performed by the external RNG
(`rand_unif`, not under `src/`), modelled from the spec as a value in
`[0, epoch_size)` (hypothesis `hr`). -/
theorem C6_random_snapshot (cfg : Config) (s : State)
    (hvr : cfg.variance_reduction = VarianceReductionMethod.Random)
    (hr : cfg.rand_draw < cfg.epoch_size)
    (hsp : cfg.model.is_sparse = false) :
    (prepare_solve cfg s).next_iterate = (fun _ => 0) ∧
    (prepare_solve cfg s).rand_index = cfg.rand_draw ∧
    (solve cfg s).next_iterate =
      (dense_loop cfg (prepare_solve cfg s) (cfg.rand_draw + 1)).iterate := by
  have hnext : (prepare_solve cfg s).next_iterate = (fun _ => 0) := by
    simp only [prepare_solve]
    split_ifs <;> simp_all [compute_step_corrections_next_iterate]
  have hrand : (prepare_solve cfg s).rand_index = cfg.rand_draw := by
    simp only [prepare_solve]
    split_ifs <;> simp_all
  refine ⟨hnext, hrand, ?_⟩
  set sp := prepare_solve cfg s with hsp_def
  have hsolve : solve cfg s = solve_dense cfg sp := by
    simp [solve, hsp, hsp_def]
  rw [hsolve]
  -- Decompose the epoch at the drawn index.
  obtain ⟨m, hm⟩ : ∃ m, cfg.epoch_size = (cfg.rand_draw + 1) + m :=
    ⟨cfg.epoch_size - (cfg.rand_draw + 1), by omega⟩
  have hloop : (dense_loop cfg sp cfg.epoch_size).next_iterate =
      (dense_loop cfg sp (cfg.rand_draw + 1)).iterate := by
    have hsplit : dense_loop cfg sp cfg.epoch_size =
        ((List.range m).map ((cfg.rand_draw + 1) + ·)).foldl (dense_iter cfg)
          (dense_loop cfg sp (cfg.rand_draw + 1)) := by
      rw [hm]
      simp [dense_loop, List.range_add, List.foldl_append]
    rw [hsplit]
    have hrand' : (dense_loop cfg sp (cfg.rand_draw + 1)).rand_index =
        cfg.rand_draw := by
      rw [dense_loop_rand_index, hrand]
    rw [foldl_dense_iter_random_miss cfg cfg.rand_draw hvr _ _ hrand'
      (by intro x hx; simp only [List.mem_map] at hx; omega)]
    rw [dense_loop_succ]
    apply dense_iter_random_hit cfg _ _ hvr
    rw [dense_loop_rand_index, hrand]
  have hlast : cfg.variance_reduction ≠ VarianceReductionMethod.Last := by
    rw [hvr]; intro hc; exact absurd hc (by decide)
  simp [solve_dense, hlast, hloop]

/-- A concrete dense Random-policy configuration: epoch size 3, drawn
index 1. -/
def configC6 : Config :=
  { baseConfig with epoch_size := 3, rand_draw := 1, variance_reduction := VarianceReductionMethod.Random }

/-- Witness for C6: a concrete dense configuration with epoch size 3 and
drawn index 1. -/
theorem C6_random_snapshot_witness :
    (solve configC6 baseState).next_iterate =
      (dense_loop configC6 (prepare_solve configC6 baseState) (1 + 1)).iterate := by
  exact (C6_random_snapshot configC6 baseState rfl (by decide) rfl).2.2

/-- Generic fold preservation: a state observation untouched by every step
is untouched by the fold. -/
lemma foldl_preserve {α β : Type} (f : State → α → State) (g : State → β)
    (hf : ∀ s a, g (f s a) = g s) :
    ∀ (l : List α) (s : State), g (l.foldl f s) = g s := by
  intro l
  induction l with
  | nil => intro s; rfl
  | cons a l ih => intro s; rw [List.foldl_cons, ih, hf]

lemma proba_iter_steps_correction (cfg : Config) (t : Nat) (s : State) :
    (proba_iter cfg t s).steps_correction = s.steps_correction := by
  simp only [proba_iter, vr_snapshot_steps_correction]

lemma proba_iter_ready (cfg : Config) (t : Nat) (s : State) :
    (proba_iter cfg t s).ready_step_corrections = s.ready_step_corrections := by
  simp only [proba_iter, vr_snapshot_ready]

lemma solve_sparse_proba_updates_steps_correction (cfg : Config) (s : State) :
    (solve_sparse_proba_updates cfg s).steps_correction = s.steps_correction := by
  by_cases h : cfg.variance_reduction = VarianceReductionMethod.Last <;>
    simp [solve_sparse_proba_updates, h,
      foldl_preserve (fun s t => proba_iter cfg t s) State.steps_correction
        (fun s t => proba_iter_steps_correction cfg t s)]

lemma solve_sparse_proba_updates_ready (cfg : Config) (s : State) :
    (solve_sparse_proba_updates cfg s).ready_step_corrections =
      s.ready_step_corrections := by
  by_cases h : cfg.variance_reduction = VarianceReductionMethod.Last <;>
    simp [solve_sparse_proba_updates, h,
      foldl_preserve (fun s t => proba_iter cfg t s) State.ready_step_corrections
        (fun s t => proba_iter_ready cfg t s)]

lemma prepare_solve_cache_of_ready (cfg : Config) (s : State)
    (h : s.ready_step_corrections = true) :
    (prepare_solve cfg s).steps_correction = s.steps_correction ∧
    (prepare_solve cfg s).ready_step_corrections = true := by
  simp only [prepare_solve]
  split_ifs <;> simp_all [compute_step_corrections]

lemma prepare_solve_cache_compute (cfg : Config) (s : State)
    (hmsp : s.is_model_sparse = true) (hready : s.ready_step_corrections = false)
    (hs : cfg.model.is_sparse = true)
    (hdu : cfg.delayed_updates = DelayedUpdatesMethod.Proba) :
    (prepare_solve cfg s).steps_correction = steps_correction_of cfg.model ∧
    (prepare_solve cfg s).ready_step_corrections = true := by
  simp only [prepare_solve, hmsp, if_true, compute_step_corrections, hready, hs, hdu]
  constructor <;> · split_ifs <;> simp_all

/-- A sparse model under the Exact delayed-updates policy: the
step-correction computation never runs for it. -/
def configC7exact : Config :=
  { baseConfig with model := modelC1, delayed_updates := DelayedUpdatesMethod.Exact }

/-- Counterexample to claim C7 as stated: for this sparse model bound under
the `Exact` delayed-updates policy, `prepare_solve` does NOT cache the step
corrections — `compute_step_corrections` (svrg.cpp line 78) additionally
requires the `Proba` policy, so the ready flag stays `false` and the
correction buffer keeps its prior (never-written) content instead of
`steps_correction_of` the bound model. -/
theorem C7_counterexample :
    modelC1.is_sparse = true ∧
    (prepare_solve configC7exact
      (set_model configC7exact baseState)).ready_step_corrections = false ∧
    (prepare_solve configC7exact
      (set_model configC7exact baseState)).steps_correction 0 = 0 ∧
    steps_correction_of configC7exact.model 0 = 1 ∧ (0 : ℚ) ≠ 1 := by
  refine ⟨rfl, rfl, rfl, ?_, by norm_num⟩
  norm_num [steps_correction_of, configC7exact, modelC1, baseModel, baseConfig]

/-- Claim C7 as amended: for a sparse model under the PROBABILISTIC
delayed-updates policy, the first `solve()` after binding a model computes
and caches the step corrections; any later `solve()` on a ready cache
leaves the cache unchanged (idempotent ready-check); and `set_model`
invalidates the cache. Under the Exact policy nothing is computed (see the
counterexample). -/
theorem C7_amended_cache_discipline (cfg cfg2 : Config) (s s2 : State)
    (hs : cfg.model.is_sparse = true)
    (hdu : cfg.delayed_updates = DelayedUpdatesMethod.Proba) :
    ((solve cfg (set_model cfg s)).steps_correction = steps_correction_of cfg.model ∧
      (solve cfg (set_model cfg s)).ready_step_corrections = true) ∧
    (s2.ready_step_corrections = true →
      (solve cfg s2).steps_correction = s2.steps_correction ∧
      (solve cfg s2).ready_step_corrections = true) ∧
    (set_model cfg2 s2).ready_step_corrections = false := by
  have hdisp : ∀ s' : State, solve cfg s' =
      solve_sparse_proba_updates cfg (prepare_solve cfg s') := by
    intro s'
    simp [solve, hs, hdu]
  refine ⟨?_, ?_, ?_⟩
  · have hset : (set_model cfg s).is_model_sparse = true ∧
        (set_model cfg s).ready_step_corrections = false := by
      simp [set_model, hs]
    have hprep := prepare_solve_cache_compute cfg (set_model cfg s)
      hset.1 hset.2 hs hdu
    rw [hdisp, solve_sparse_proba_updates_steps_correction,
      solve_sparse_proba_updates_ready]
    exact hprep
  · intro hready
    have hprep := prepare_solve_cache_of_ready cfg s2 hready
    rw [hdisp, solve_sparse_proba_updates_steps_correction,
      solve_sparse_proba_updates_ready]
    exact hprep
  · simp [set_model]
    split_ifs <;> rfl

/-- A sparse model bound under the Proba policy, for the C7 witness. -/
def configC7proba : Config := { baseConfig with model := modelC1 }

/-- Witness for C7 (amended): the concrete sparse Proba configuration
computes and caches the corrections on the first solve after binding. -/
theorem C7_amended_cache_discipline_witness :
    (solve configC7proba (set_model configC7proba baseState)).steps_correction =
      steps_correction_of configC7proba.model ∧
    (solve configC7proba
      (set_model configC7proba baseState)).ready_step_corrections = true := by
  exact (C7_amended_cache_discipline configC7proba configC7proba baseState baseState
    rfl rfl).1

lemma proba_coord_update_self (cfg : Config) (grad_i_diff : ℚ) (sc fg w : Vec)
    (p : Nat × ℚ) :
    proba_coord_update cfg true grad_i_diff sc fg w p p.1 =
      cfg.prox.call_single
        (w p.1 - cfg.step * (p.2 * grad_i_diff + sc p.1 * fg p.1))
        (cfg.step * sc p.1) := by
  simp [proba_coord_update]

lemma proba_coord_update_other (cfg : Config) (sep : Bool) (grad_i_diff : ℚ)
    (sc fg w : Vec) (p : Nat × ℚ) (k : Nat) (hk : k ≠ p.1) :
    proba_coord_update cfg sep grad_i_diff sc fg w p k = w k := by
  cases sep <;> simp [proba_coord_update, Function.update_noteq hk]

lemma proba_support_loop_other (cfg : Config) (sep : Bool) (grad_i_diff : ℚ)
    (sc fg : Vec) :
    ∀ (l : List (Nat × ℚ)) (w : Vec) (k : Nat), (∀ p ∈ l, k ≠ p.1) →
      proba_support_loop cfg sep grad_i_diff sc fg l w k = w k := by
  intro l
  induction l with
  | nil => intro w k _; rfl
  | cons p l ih =>
    intro w k hk
    simp only [proba_support_loop, List.foldl_cons] at *
    rw [ih _ k (fun q hq => hk q (List.mem_cons_of_mem p hq))]
    exact proba_coord_update_other cfg sep grad_i_diff sc fg w p k
      (hk p (List.mem_cons_self p l))

lemma proba_support_loop_mem (cfg : Config) (grad_i_diff : ℚ) (sc fg : Vec) :
    ∀ (l : List (Nat × ℚ)) (w : Vec) (j : Nat) (x : ℚ),
      (j, x) ∈ l → (l.map Prod.fst).Nodup →
      proba_support_loop cfg true grad_i_diff sc fg l w j =
        cfg.prox.call_single
          (w j - cfg.step * (x * grad_i_diff + sc j * fg j))
          (cfg.step * sc j) := by
  intro l
  induction l with
  | nil => intro w j x h _; cases h
  | cons p l ih =>
    intro w j x hmem hnd
    rw [List.map_cons, List.nodup_cons] at hnd
    simp only [proba_support_loop, List.foldl_cons] at *
    rcases List.mem_cons.mp hmem with hhead | htail
    · have hj : j = p.1 := by rw [← hhead]
      have hx : x = p.2 := by rw [← hhead]
      subst hj hx
      have hother := proba_support_loop_other cfg true grad_i_diff sc fg l
        (proba_coord_update cfg true grad_i_diff sc fg w p) p.1
        (fun q hq hc => hnd.1 (hc ▸ List.mem_map_of_mem Prod.fst hq))
      simp only [proba_support_loop] at hother
      rw [hother]
      exact proba_coord_update_self cfg grad_i_diff sc fg w p
    · have hj : j ≠ p.1 := by
        intro hc
        exact hnd.1 (hc ▸ List.mem_map_of_mem Prod.fst htail)
      rw [ih _ j x htail hnd.2,
        proba_coord_update_other cfg true grad_i_diff sc fg w p j hj]

/-- Claim C8: in the sparse probabilistic routine, for any iteration `t`
and any pair `(j, x_ij)` of the sampled feature vector's support (indices
distinct, all below `n_features` when the intercept is in use), the
coordinate update performed is
`iterate[j] -= step * (x_ij * grad_i_diff + step_correction[j] *
full_gradient[j])`, and with a separable prox the single-coordinate prox is
then applied with step size `step * step_correction[j]`. -/
theorem C8_proba_coordinate_update (cfg : Config) (t : Nat) (s : State)
    (j : Nat) (x : ℚ)
    (hsep : s.is_prox_separable = true)
    (hmem : (j, x) ∈ cfg.model.get_features (cfg.get_next_i t))
    (hnd : ((cfg.model.get_features (cfg.get_next_i t)).map Prod.fst).Nodup)
    (hint : s.use_intercept = true → j ≠ s.n_features) :
    (proba_iter cfg t s).iterate j =
      cfg.prox.call_single
        (s.iterate j -
          cfg.step * (x * (cfg.model.grad_i_factor (cfg.get_next_i t) s.iterate -
              cfg.model.grad_i_factor (cfg.get_next_i t) s.fixed_w) +
            s.steps_correction j * s.full_gradient j))
        (cfg.step * s.steps_correction j) := by
  simp only [proba_iter, vr_snapshot_iterate, hsep, Bool.not_true, Bool.false_eq_true,
    if_false]
  by_cases hu : s.use_intercept
  · simp only [hu, if_true]
    rw [Function.update_noteq (hint hu)]
    exact proba_support_loop_mem cfg _ s.steps_correction s.full_gradient _
      s.iterate j x hmem hnd
  · simp only [hu, Bool.false_eq_true, if_false]
    exact proba_support_loop_mem cfg _ s.steps_correction s.full_gradient _
      s.iterate j x hmem hnd

/-- A sparse GLM model whose sample 0 has the single sparse feature pair
`(0, 2)`, for the C8 witness. -/
def modelC8 : Model :=
  { baseModel with is_sparse := true, get_features := fun _ => [(0, 2)] }

/-- Configuration for the C8 witness. -/
def configC8 : Config := { baseConfig with model := modelC8 }

/-- State for the C8 witness: step correction 2 and full gradient 1 at
coordinate 0. -/
def stateC8 : State :=
  { baseState with is_model_sparse := true, steps_correction := fun _ => 2, full_gradient := fun _ => 1 }

/-- Witness for C8 at a concrete support pair `(0, 2)`. -/
theorem C8_proba_coordinate_update_witness :
    (proba_iter configC8 0 stateC8).iterate 0 =
      configC8.prox.call_single
        (stateC8.iterate 0 -
          configC8.step * (2 * (configC8.model.grad_i_factor (configC8.get_next_i 0) stateC8.iterate -
              configC8.model.grad_i_factor (configC8.get_next_i 0) stateC8.fixed_w) +
            stateC8.steps_correction 0 * stateC8.full_gradient 0))
        (configC8.step * stateC8.steps_correction 0) := by
  exact C8_proba_coordinate_update configC8 0 stateC8 0 2 rfl
    (List.mem_singleton.mpr rfl) (by decide) (by decide)

/-- The per-iteration step of the per-coordinate decrement bookkeeping of
the exact routine: at iteration `t`, a coordinate `j` in the sampled
support receives `delay + 1` full-gradient decrements (svrg.cpp lines
198–207: the bulk catch-up of `delay` decrements plus the one decrement
inside the support update) and its `last_time` is set to `t` (line 213);
a coordinate outside the support is untouched. The pair carries
`(last_time[j], decrements so far)`. Support indices of a sparse vector
are distinct, so membership captures the inner loop's effect on `j`. -/
def exact_count_step (supports : Nat → List Nat) (j : Nat)
    (st : Nat × Nat) (t : Nat) : Nat × Nat :=
  if j ∈ supports t then (t, st.2 + (exact_delay t st.1 + 1)) else st

/-- The total number of full-gradient decrements (equivalently, with a
separable prox, of single-step prox applications: the batched call for
delay `d` equals `d` single steps per the spec's `apply_single_delayed`
contract, plus one single step per touch) received by feature coordinate
`j` over one epoch of the exact routine, finalization pass included
(svrg.cpp lines 177–247): the epoch loop folds `exact_count_step` from the
initialization `last_time[j] = 0` (svrg.cpp line 45), and the finalization
pass applies the outstanding `exact_delay` at `t = epoch_size` (lines
235–246). -/
def exact_decrement_count (epoch_size : Nat) (supports : Nat → List Nat)
    (j : Nat) : Nat :=
  let st := (List.range epoch_size).foldl (exact_count_step supports j) (0, 0)
  st.2 + exact_delay epoch_size st.1

/-- Follows the spec's words (§8, the comparison reference for claim C5):
a reference execution that updates every coordinate every iteration up to
`t = epoch_size` applies exactly `epoch_size` full-gradient decrements to
every coordinate. -/
def spec_reference_decrement_count (epoch_size : Nat) : Nat := epoch_size

/-- A sparse model whose every sample has empty support, for the C5
counterexample. -/
def modelC5 : Model := { baseModel with is_sparse := true }

/-- Configuration for the C5 counterexample: one iteration per epoch,
exact delayed updates, unit step. -/
def configC5 : Config :=
  { baseConfig with model := modelC5, delayed_updates := DelayedUpdatesMethod.Exact }

/-- State for the C5 counterexample: one feature with full-gradient value 1
and iterate 0, last-touch timestamps initialized to 0 as by
`prepare_solve`. -/
def stateC5 : State :=
  { baseState with is_model_sparse := true, full_gradient := fun _ => 1 }

/-- Counterexample to claim C5 as stated: with `epoch_size = 1` and a
sample of empty support, feature coordinate 0 receives 0 full-gradient
decrements over the whole epoch (finalization included), while the
per-iteration full-vector reference applies 1; concretely the exact
routine leaves `iterate[0] = 0` whereas one reference decrement of
`step * full_gradient[0]` would give `-1`. The root cause: `last_time`
initialized to 0 (svrg.cpp line 45) makes the delay formula
`t - (last_time[j] + 1)` treat every coordinate as already updated at
iteration 0, so the iteration-0 contribution is never applied to
coordinates outside the iteration-0 support. -/
theorem C5_counterexample :
    exact_decrement_count 1 (fun _ => []) 0 = 0 ∧
    spec_reference_decrement_count 1 = 1 ∧
    (0 : Nat) ≠ 1 ∧
    (solve_sparse_exact_updates configC5 stateC5).iterate 0 = 0 ∧
    stateC5.iterate 0 - configC5.step * stateC5.full_gradient 0 = -1 ∧
    (0 : ℚ) ≠ -1 := by
  refine ⟨rfl, rfl, by decide, rfl, by norm_num [stateC5, configC5, baseState, baseConfig], by norm_num⟩

lemma exact_count_invariant (supports : Nat → List Nat) (j : Nat) :
    ∀ k : Nat,
      ((List.range k).foldl (exact_count_step supports j) (0, 0)).2 =
        ((List.range k).foldl (exact_count_step supports j) (0, 0)).1 +
          (if 0 < k ∧ j ∈ supports 0 then 1 else 0) ∧
      ((List.range k).foldl (exact_count_step supports j) (0, 0)).1 + 1 ≤ max k 1 := by
  intro k
  induction k with
  | zero => simp
  | succ k ih =>
    rw [List.range_succ, List.foldl_append, List.foldl_cons, List.foldl_nil]
    obtain ⟨ih1, ih2⟩ := ih
    rcases Nat.eq_zero_or_pos k with hk0 | hk1
    · subst hk0
      by_cases h0 : j ∈ supports 0 <;>
        simp [exact_count_step, exact_delay, h0]
    · by_cases hk : j ∈ supports k
      · simp only [exact_count_step, hk, if_true, ite_true]
        have hb : (0 < k + 1 ∧ j ∈ supports 0) ↔ (0 < k ∧ j ∈ supports 0) := by
          constructor <;> exact fun h => ⟨by omega, h.2⟩
        by_cases h0 : j ∈ supports 0 <;>
          · simp only [exact_delay, h0, and_true, and_false, if_true, if_false,
              hk1, Nat.lt_irrefl] at ih1 ⊢
            constructor
            · split_ifs <;> simp_all <;> omega
            · omega
      · simp only [exact_count_step, hk, ite_false]
        have hb : (0 < k + 1 ∧ j ∈ supports 0) ↔ (0 < k ∧ j ∈ supports 0) := by
          constructor
          · intro h
            rcases Nat.eq_zero_or_pos k with h' | h'
            · exact absurd (h' ▸ h.2) hk
            · exact ⟨h', h.2⟩
          · exact fun h => ⟨by omega, h.2⟩
        refine ⟨?_, by omega⟩
        rw [ih1]
        congr 1
        simp only [hb]

/-- Claim C5 as amended: over one epoch of the exact routine (finalization
pass included), feature coordinate `j` receives `epoch_size - 1`
full-gradient decrements, plus one more exactly when `j` lies in the
support of the sample drawn at iteration 0 — one fewer than the
per-iteration full-vector reference for every coordinate outside the
iteration-0 support — and the finalization pass writes `iterate` but never
modifies `last_time`. -/
theorem C5_amended_decrement_count (epoch_size : Nat) (supports : Nat → List Nat)
    (j : Nat) (h : 1 ≤ epoch_size) (cfg : Config) (s : State) :
    exact_decrement_count epoch_size supports j =
      (epoch_size - 1) + (if j ∈ supports 0 then 1 else 0) ∧
    (exact_finalize cfg s).last_time = s.last_time := by
  refine ⟨?_, exact_finalize_last_time cfg s⟩
  obtain ⟨h1, h2⟩ := exact_count_invariant supports j epoch_size
  have hmax : max epoch_size 1 = epoch_size := by omega
  rw [hmax] at h2
  simp only [exact_decrement_count, exact_delay]
  rw [h1]
  have hpos : (0 < epoch_size ∧ j ∈ supports 0) ↔ (j ∈ supports 0) := by
    constructor
    · exact fun hh => hh.2
    · exact fun hh => ⟨by omega, hh⟩
  simp only [hpos]
  by_cases h0 : j ∈ supports 0 <;> simp only [h0, if_true, ite_true, if_false, ite_false] <;>
    split_ifs <;> omega

/-- Witness for C5 (amended) at `epoch_size = 2` with every support equal
to `[0]`: coordinate 0 is touched at iteration 0 and receives 2 decrements. -/
theorem C5_amended_decrement_count_witness :
    exact_decrement_count 2 (fun _ => [0]) 0 = (2 - 1) + 1 ∧
    (exact_finalize baseConfig baseState).last_time = baseState.last_time := by
  have h := C5_amended_decrement_count 2 (fun _ => [0]) 0 (by decide)
    baseConfig baseState
  constructor
  · rw [h.1]
    simp
  · exact h.2

end SVRG
